import Mathlib

/-!
Shallow embedding of the LinkedIn data formatter pipeline
(src/linkedin_data_fetcher.py, src/db_utils.py, src/excel_writer.py,
src/leadership_detector.py, src/fortune500.py) and proofs about it.

Raw provider records are untyped Python dictionaries.  Their values, as
consumed by the code, are stratified into three layers matching the shapes
the provider delivers: scalars (`Scalar`), entry-dictionary values
(`EntryVal`, a scalar or a flat date dictionary), and record fields
(`Field`, a scalar, a list of scalars, a flat dictionary, or a list of
entry dictionaries).  Python truthiness, `dict.get` with a default and
`str()` conversion are embedded explicitly.  External effects (HTTP fetch,
SQL round trips, spreadsheet reads) are modelled as explicit parameters or
oracles; failures of the relational store are modelled by an explicit
failure schedule mirroring the except-branches of the source.
-/

namespace LinkedinFmt

/-- Scalar Python values appearing in provider records. -/
inductive Scalar where
  | snull
  | sstr (s : String)
  | snat (n : Nat)
deriving DecidableEq

/-- Values of an entry dictionary (education / experience / certification
entry): a scalar or a flat date dictionary such as starts_at. -/
inductive EntryVal where
  | escalar (v : Scalar)
  | edict (m : List (String × Scalar))
deriving DecidableEq

/-- Top-level field of a raw or canonical profile record: a scalar, a list
of scalars (skills, languages), a flat dictionary, or a list of entry
dictionaries (education, experiences, certifications). -/
inductive Field where
  | fscalar (v : Scalar)
  | fslist (l : List Scalar)
  | fdict (m : List (String × Scalar))
  | fentries (l : List (List (String × EntryVal)))
deriving DecidableEq

/-- Python truthiness of a scalar: None, the empty string and 0 are falsy. -/
def Scalar.truthy : Scalar → Bool
  | .snull => false
  | .sstr s => s != ""
  | .snat n => n != 0

/-- Python truthiness of an entry value: empty dictionaries are falsy. -/
def EntryVal.truthy : EntryVal → Bool
  | .escalar v => v.truthy
  | .edict m => !m.isEmpty

/-- Python truthiness of a field: empty lists and dictionaries are falsy. -/
def Field.truthy : Field → Bool
  | .fscalar v => v.truthy
  | .fslist l => !l.isEmpty
  | .fdict m => !m.isEmpty
  | .fentries l => !l.isEmpty

/-- Python `d.get(key, default)` on an association list. -/
def pget {α : Type} (m : List (String × α)) (k : String) (dflt : α) : α :=
  match m.find? (fun kv => kv.1 == k) with
  | some kv => kv.2
  | none => dflt

/-- Python `str()` of a scalar value. -/
def pyStr : Scalar → String
  | .sstr s => s
  | .snat n => Nat.repr n
  | .snull => "None"

/-- Python `s.zfill(2)`: left-pad with zeros to length 2. -/
def zfill2 (s : String) : String :=
  if 2 ≤ s.length then s else String.mk (List.replicate (2 - s.length) '0') ++ s

/-- Embeds `format_date` (src/linkedin_data_fetcher.py lines 26-32).
The argument is the raw value found under a date key of an entry
dictionary; `none` in the result models an uncaught AttributeError
(truthy non-dictionary input). -/
def format_date (v : EntryVal) : Option String :=
  if !v.truthy then some "Present"
  else match v with
    | .edict m =>
      let month := zfill2 (pyStr (pget m "month" (.sstr "")))
      let year := pyStr (pget m "year" (.sstr ""))
      some (if month != "" && year != "" then month ++ "/" ++ year else "N/A")
    | .escalar _ => none

/-! Helper facts about decimal representations of naturals, used to settle
the date-formatting claim for arbitrary years. -/

theorem toDigitsCore_length_le (b : Nat) :
    ∀ (fuel n : Nat) (ds : List Char), ds.length ≤ (Nat.toDigitsCore b fuel n ds).length := by
  intro fuel
  induction fuel with
  | zero => intro n ds; simp [Nat.toDigitsCore]
  | succ k ih =>
    intro n ds
    simp only [Nat.toDigitsCore]
    split
    · simp
    · exact le_trans (by simp) (ih _ _)

theorem toDigitsCore_length_pos (b fuel n : Nat) (ds : List Char) :
    ds.length + 1 ≤ (Nat.toDigitsCore b (fuel + 1) n ds).length := by
  simp only [Nat.toDigitsCore]
  split
  · simp
  · exact le_trans (by simp) (toDigitsCore_length_le b fuel _ _)

/-! Character-list utilities embedding Python string primitives.  The
string methods involved (lower, strip, split, replace, substring test) are
embedded over `List Char`; case mapping is the ASCII mapping of
`Char.toLower` and `Char.isUpper`, matching the data handled by the
repository. -/

/-- Python `s.strip()`: drop whitespace from both ends. -/
def stripChars (l : List Char) : List Char :=
  ((l.dropWhile Char.isWhitespace).reverse.dropWhile Char.isWhitespace).reverse

/-- Python `s.split()` with no argument: split on whitespace runs, with no
empty words in the result. -/
def pySplitWs (l : List Char) : List (List Char) :=
  (List.splitOnP Char.isWhitespace l).filter (fun w => !w.isEmpty)

/-- Python `needle in haystack` on strings: substring test. -/
def listIsInfix (needle : List Char) : List Char → Bool
  | [] => needle.isEmpty
  | c :: t => needle.isPrefixOf (c :: t) || listIsInfix needle t

/-- Python `s.replace(pat, "")` for a non-empty pattern: remove every
(left-to-right, non-overlapping) occurrence.  The fuel argument bounds the
recursion; `s.length` fuel is always sufficient because every step consumes
at least one character. -/
def removeAllFuel (pat : List Char) : Nat → List Char → List Char
  | 0, s => s
  | _ + 1, [] => []
  | fuel + 1, c :: rest =>
    if pat.isPrefixOf (c :: rest) then removeAllFuel pat fuel ((c :: rest).drop pat.length)
    else c :: removeAllFuel pat fuel rest

/-- Python `s.replace(pat, "")` on strings. -/
def pyReplaceAll (s pat : String) : String :=
  String.mk (removeAllFuel pat.data s.data.length s.data)

theorem listIsInfix_nil (l : List Char) : listIsInfix [] l = true := by
  cases l <;> simp [listIsInfix, List.isPrefixOf]

/-! Canonical record shapes produced by the normalizer and consumed by the
classifiers and the persistence layer.  Descriptive profile columns and
classification flags that no claim mentions are abstracted away; the
identity-bearing fields (profile_id, profile_url) and every child-row
field touched by the code under verification are kept. -/

/-- An employment experience entry of the canonical record
(title, company, location, description, formatted dates). -/
structure ExpRec where
  title : String
  company : String
  location : String
  description : String
  start_date : String
  end_date : String
deriving DecidableEq

/-- An education entry of the canonical record. -/
structure EduRec where
  institution_name : String
  degree : String
  field_of_study : String
  start_date : String
  end_date : String
deriving DecidableEq

/-- A raw certification entry as delivered by the provider: dates are
still raw entry values, formatted later by the batch loop. -/
structure CertRaw where
  name : String
  issuing_organization : String
  issue_date : EntryVal
  expiration_date : EntryVal
  credential_id : String
  credential_url : String
deriving DecidableEq

/-- A formatted certification row. -/
structure CertRec where
  name : String
  issuing_organization : String
  issue_date : String
  expiration_date : String
  credential_id : String
  credential_url : String
deriving DecidableEq

/-- A club/association experience row as built by the batch loop. -/
structure ClubRec where
  club_name : String
  role : String
  description : String
  start_date : String
  end_date : String
  location : String
  position : String
deriving DecidableEq

/-! ## Leadership detector (src/leadership_detector.py) -/

/-- The exact-match leadership keywords (lines 32-36). -/
def exact_keywords : List String :=
  ["executive", "exec", "director", "manager", "lead", "head",
   "chief", "ceo", "cfo", "cto", "coo", "vp", "president", "chair",
   "supervisor", "founder"]

/-- The multi-word keywords used for fuzzy matching (lines 39-43). -/
def fuzzy_keywords : List String :=
  ["department head", "executive director", "managing director", "senior manager",
   "vice president", "general manager", "regional manager"]

/-- Embeds the title preprocessing of `is_leadership_role` (lines 52-55):
lowercase the most recent title, then insert a space before every
uppercase character at positions beyond 0, then strip. -/
def leadership_title_process (title : String) : String :=
  let t := title.data.map Char.toLower
  let t := (t.enum.map (fun ic => if ic.2.isUpper && decide (0 < ic.1) then [' ', ic.2] else [ic.2])).flatten
  String.mk (stripChars t)

/-- The word set examined for exact leadership-keyword matches (line 58). -/
def leadership_tokens (title : String) : List String :=
  (pySplitWs (leadership_title_process title).data).map String.mk

/-- Embeds `is_leadership_role` (src/leadership_detector.py lines 20-69).
The fuzzy scorer of the fuzzywuzzy library is an oracle parameter; the
source takes the best three scores and succeeds if any reaches the
threshold, which is equivalent to some keyword reaching the threshold. -/
def is_leadership_role (ratio : String → String → Nat) (threshold : Nat)
    (experiences : List ExpRec) : Bool :=
  match experiences with
  | [] => false
  | latest :: _ =>
    let t := leadership_title_process latest.title
    let title_words := (pySplitWs t.data).map String.mk
    if exact_keywords.any (fun k => title_words.contains k) then true
    else fuzzy_keywords.any (fun k => threshold ≤ ratio t k)

/-! ## Fortune 500 detector (src/fortune500.py) -/

/-- The company-variations map (lines 45-67). -/
def COMPANY_VARIATIONS : List (String × String) :=
  [("google", "alphabet"), ("google inc", "alphabet"), ("google llc", "alphabet"),
   ("youtube", "alphabet"), ("waymo", "alphabet"), ("deepmind", "alphabet"),
   ("calico", "alphabet"), ("verily", "alphabet"),
   ("meta", "meta platforms"), ("facebook", "meta platforms"),
   ("instagram", "meta platforms"), ("whatsapp", "meta platforms"),
   ("oculus", "meta platforms"),
   ("microsoft corporation", "microsoft"), ("apple inc", "apple"),
   ("amazon.com", "amazon")]

/-- The corporate suffixes stripped by normalization (lines 109-113), in
source order. -/
def corporate_suffixes : List String :=
  [" inc", " corp", " corporation", " ltd", " llc",
   " company", " co", ".com", " group", " plc",
   " holdings", " holding", " technologies", " technology"]

/-- Embeds `normalize_company_name` (src/fortune500.py lines 69-116).
`none` models the uncaught IndexError raised by `name.split()[0]` when the
lowered, stripped name has no words (the caller catches it).  The source
repeats the falsy-input guard twice; the duplicate is collapsed. -/
def normalize_company_name (name : String) : Option String :=
  if name == "" then some ""
  else
    let n := String.mk (stripChars (name.data.map Char.toLower))
    match COMPANY_VARIATIONS.find? (fun kv => kv.1 == n) with
    | some kv => some kv.2
    | none =>
      match pySplitWs n.data with
      | [] => none
      | w :: _ =>
        match COMPANY_VARIATIONS.find? (fun kv => kv.1 == String.mk w) with
        | some kv => some kv.2
        | none =>
          let n2 := corporate_suffixes.foldl (fun acc suf => pyReplaceAll acc suf) n
          some (String.mk (stripChars n2.data))

/-- Embeds `is_fortune_500` (src/fortune500.py lines 118-180).  The cached
reference set loaded from JSON is the `companies` parameter; the fuzzy
scorer is an oracle.  The except-branch returning False covers the `none`
result of name normalization. -/
def is_fortune_500 (companies : List String) (ratio : String → String → Nat)
    (experiences : List ExpRec) : Bool :=
  match experiences with
  | [] => false
  | latest :: _ =>
    if latest.company == "" then false
    else
      match normalize_company_name latest.company with
      | none => false
      | some normalized =>
        if companies.contains normalized then true
        else companies.any (fun c =>
          listIsInfix normalized.data c.data || listIsInfix c.data normalized.data
            || 85 < ratio normalized c)

theorem repr_ne_empty (n : Nat) : Nat.repr n ≠ "" := by
  intro hcon
  have h := toDigitsCore_length_pos 10 n n []
  have hd : (Nat.repr n).data = Nat.toDigitsCore 10 (n + 1) n [] := rfl
  rw [hcon] at hd
  simp only [List.length_nil, Nat.zero_add] at h
  rw [← hd] at h
  simp at h

/-! ## Relational store and batch pipeline (src/db_utils.py,
src/linkedin_data_fetcher.py)

SQLAlchemy failures are external nondeterminism; they are modelled by an
explicit failure schedule `FailSpec` naming, per operation, which
except-branch of the source fires.  `DBErr` locates a failure inside
`insert_single_profile`: at the existence query, at the first commit
(profile, educations, experiences, club experiences), or at the second
commit (certifications). -/

/-- Failure point of one `insert_single_profile` call. -/
inductive DBErr where
  | noErr
  | atQuery
  | atCommit1
  | atCommit2
deriving DecidableEq

/-- Failure schedule of a batch run: database-connection success,
high-water-mark query failure, per-URL existence-query failure and
per-URL insert failure point. -/
structure FailSpec where
  connOk : Bool
  hwmFails : Bool
  existsFails : String → Bool
  insertErr : String → DBErr

/-- A persisted profile row.  Descriptive columns not named by any claim
are abstracted away; identity columns are kept. -/
structure DBProfile where
  profile_id : Nat
  profile_url : String
  full_name : String
deriving DecidableEq

/-- The five relational tables (also the shape of the five row-lists a
batch returns to its caller for the spreadsheet sink).  Child rows carry
their profile_id foreign key. -/
structure Tables where
  profiles : List DBProfile
  educations : List (Nat × EduRec)
  experiences : List (Nat × ExpRec)
  club_experiences : List (Nat × ClubRec)
  certifications : List (Nat × CertRec)
deriving DecidableEq

/-- The empty store / empty batch result. -/
def empty_tables : Tables := ⟨[], [], [], [], []⟩

/-- Embeds `DatabaseManager.get_max_profile_id` (src/db_utils.py lines
327-337): the greatest profile_id, 0 for an empty table, and 0 when the
query raises SQLAlchemyError (the except-branch logs and returns 0). -/
def get_max_profile_id (queryFails : Bool) (st : Tables) : Nat :=
  if queryFails then 0
  else (st.profiles.map (fun p => p.profile_id)).foldr max 0

/-- Embeds `DatabaseManager.profile_exists` (src/db_utils.py lines
339-352): the profile_id of the first row with this URL, `none` if absent
or when the query raises (the except-branch returns None). -/
def profile_exists (queryFails : Bool) (st : Tables) (url : String) : Option Nat :=
  if queryFails then none
  else (st.profiles.find? (fun p => p.profile_url == url)).map (fun p => p.profile_id)

/-- Embeds `DatabaseManager.insert_single_profile` (src/db_utils.py lines
354-468).  The source performs TWO commits: one after adding the profile
and the education/experience/club rows (line 438), a second after adding
the certification rows (line 456).  A failure therefore rolls back only
the rows added since the last commit, and the committed rows stay. -/
def insert_single_profile (err : DBErr) (st : Tables) (p : DBProfile)
    (edus : List EduRec) (exps : List ExpRec) (clubs : List ClubRec)
    (certs : List CertRec) : Tables × Bool :=
  if err == .atQuery then (st, false)
  else if st.profiles.any (fun q => q.profile_url == p.profile_url) then (st, false)
  else if err == .atCommit1 then (st, false)
  else
    let st1 : Tables :=
      { st with
        profiles := st.profiles ++ [p]
        educations := st.educations ++ edus.map (fun e => (p.profile_id, e))
        experiences := st.experiences ++ exps.map (fun e => (p.profile_id, e))
        club_experiences := st.club_experiences ++ clubs.map (fun e => (p.profile_id, e)) }
    if err == .atCommit2 then (st1, false)
    else ({ st1 with
            certifications := st.certifications ++ certs.map (fun c => (p.profile_id, c)) },
          true)

/-- One row of the input spreadsheet after `process_excel_file`: the
profile URL plus ingestion metadata. -/
structure Meta where
  url : String
  name : String
deriving DecidableEq

/-- The structured result of a successful `fetch_linkedin_data` call for
one URL (educations and experiences already date-formatted, certifications
still raw, as in the source). -/
structure Fetched where
  full_name : String
  educations : List EduRec
  experiences : List ExpRec
  certifications : List CertRaw
deriving DecidableEq

/-- The club/association keyword set (src/linkedin_data_fetcher.py line
289). -/
def club_keywords : List String := ["club", "society", "association", "committee", "chapter"]

/-- The experience split test (lines 287-291): any keyword occurs in the
lowercased company name or the lowercased title. -/
def is_club_exp (e : ExpRec) : Bool :=
  club_keywords.any (fun k =>
    listIsInfix k.data (e.company.data.map Char.toLower)
      || listIsInfix k.data (e.title.data.map Char.toLower))

/-- Builds the club-experience row of lines 294-303. -/
def mk_club (e : ExpRec) : ClubRec :=
  { club_name := e.company, role := e.title, description := e.description,
    start_date := e.start_date, end_date := e.end_date, location := e.location,
    position := "" }

/-- Certification formatting of the batch loop (lines 309-319); `none`
models an uncaught exception from `format_date`, which would crash the
whole batch because this part of the loop is not wrapped in a try. -/
def format_cert (c : CertRaw) : Option CertRec := do
  let i ← format_date c.issue_date
  let x ← format_date c.expiration_date
  pure { name := c.name, issuing_organization := c.issuing_organization,
         issue_date := i, expiration_date := x,
         credential_id := c.credential_id, credential_url := c.credential_url }

/-- The per-profile loop of `batch_process_excel`
(src/linkedin_data_fetcher.py lines 234-329): skip URLs already in the
store (Python truthiness of the returned id), skip failed fetches,
increment the in-memory high-water-mark, split experiences, format
certifications, insert, and accumulate the rows of successfully inserted
profiles for the caller.  Returns the final store, the final
high-water-mark and the accumulated row-lists; `none` models a crash of
the whole batch. -/
def process_profiles (ins : FailSpec) (fetch : String → Option Fetched) :
    List Meta → Tables → Nat → Option (Tables × Nat × Tables)
  | [], db, hwm => some (db, hwm, empty_tables)
  | m :: rest, db, hwm =>
    if (profile_exists (ins.existsFails m.url) db m.url).getD 0 != 0 then
      process_profiles ins fetch rest db hwm
    else
      match fetch m.url with
      | none => process_profiles ins fetch rest db hwm
      | some d =>
        let pid := hwm + 1
        let edus := d.educations
        let exps := d.experiences.filter (fun e => !is_club_exp e)
        let clubs := (d.experiences.filter is_club_exp).map mk_club
        match d.certifications.mapM format_cert with
        | none => none
        | some certs =>
          let p : DBProfile := ⟨pid, m.url, d.full_name⟩
          match insert_single_profile (ins.insertErr m.url) db p edus exps clubs certs with
          | (db1, ok) =>
            match process_profiles ins fetch rest db1 pid with
            | none => none
            | some (dbF, hwmF, res) =>
              if ok then
                some (dbF, hwmF,
                  ⟨p :: res.profiles,
                   edus.map (fun e => (pid, e)) ++ res.educations,
                   exps.map (fun e => (pid, e)) ++ res.experiences,
                   clubs.map (fun e => (pid, e)) ++ res.club_experiences,
                   certs.map (fun c => (pid, c)) ++ res.certifications⟩)
              else some (dbF, hwmF, res)

/-- Embeds `batch_process_excel` (src/linkedin_data_fetcher.py lines
193-331).  `excel_existing` is the URL set read from the output
spreadsheet by `get_existing_profiles`; `fetch` is the
fetch_linkedin_data oracle.  Returns the final store and the five
row-lists handed to the caller (the payload of the end-of-run spreadsheet
write); a connection failure or an empty work list returns empty lists
with the store untouched. -/
def batch_process_excel (ins : FailSpec) (fetch : String → Option Fetched)
    (excel_existing : List String) (db0 : Tables) (limit : Option Nat)
    (profiles_list : List Meta) : Option (Tables × Tables) :=
  if profiles_list.isEmpty then some (db0, empty_tables)
  else
    let new_profiles := profiles_list.filter (fun p => !excel_existing.contains p.url)
    if new_profiles.isEmpty then some (db0, empty_tables)
    else
      let new_profiles :=
        if limit.getD 0 > 0 then new_profiles.take (limit.getD 0) else new_profiles
      if !ins.connOk then some (db0, empty_tables)
      else
        let hwm := get_max_profile_id ins.hwmFails db0
        match process_profiles ins fetch new_profiles db0 hwm with
        | none => none
        | some (db1, _, res) => some (db1, res)

/-! ## Spreadsheet writer (src/excel_writer.py) -/

/-- A spreadsheet file: five sheets, each possibly absent. -/
structure ExcelFile where
  profiles : Option (List DBProfile)
  educations : Option (List (Nat × EduRec))
  experiences : Option (List (Nat × ExpRec))
  club_experiences : Option (List (Nat × ClubRec))
  certifications : Option (List (Nat × CertRec))
deriving DecidableEq

/-- Embeds `write_to_excel` (src/excel_writer.py lines 23-82).  Reading
the Profiles, Educations or Experiences sheet of a pre-existing file is
unguarded: an absent sheet raises, the outer except catches it and the
whole write returns None.  Only the Club Experiences and Certifications
reads carry a try/except falling back to an empty frame.  In this typed
model the profile_url column is always present, so the dedup step is
guarded only by non-emptiness of the new rows, as in the source. -/
def write_to_excel (existing : Option ExcelFile) (append_mode : Bool) (nd : Tables) :
    Option ExcelFile :=
  match existing, append_mode with
  | some f, true =>
    match f.profiles, f.educations, f.experiences with
    | some ep, some ee, some ex =>
      let ec := f.club_experiences.getD []
      let ecert := f.certifications.getD []
      let ep :=
        if !nd.profiles.isEmpty then
          ep.filter (fun p =>
            !(nd.profiles.map (fun q => q.profile_url)).contains p.profile_url)
        else ep
      some ⟨some (ep ++ nd.profiles), some (ee ++ nd.educations), some (ex ++ nd.experiences),
            some (ec ++ nd.club_experiences), some (ecert ++ nd.certifications)⟩
    | _, _, _ => none
  | _, _ =>
    some ⟨some nd.profiles, some nd.educations, some nd.experiences,
          some nd.club_experiences, some nd.certifications⟩

/-! ## Normalizer (the result-structuring step of `fetch_linkedin_data`,
src/linkedin_data_fetcher.py lines 137-184)

The raw provider record and the canonical record share the untyped
key/value shape `List (String × Field)`, so the normalizer can be composed
with itself, as the idempotence claim requires. -/

/-- Python `str()` of an entry value; the repr of a composite value never
arises in the verified paths and is abstracted. -/
def pyStrE : EntryVal → String
  | .escalar s => pyStr s
  | .edict _ => "[composite]"

/-- Python `str(v or "")`: the empty string when `v` is falsy, `str(v)`
otherwise (lines 175-178). -/
def pyOrEmptyStr (v : EntryVal) : String :=
  if v.truthy then pyStrE v else ""

/-- Python `for entry in value` where each entry is consumed with
`entry.get(...)`: yields the entry dictionaries, `none` models the
TypeError/AttributeError raised on non-iterable values or non-dictionary
entries.  Iterating an empty string, list or dictionary yields nothing. -/
def iterEntries : Field → Option (List (List (String × EntryVal)))
  | .fentries l => some l
  | .fslist l => if l.isEmpty then some [] else none
  | .fscalar (.sstr s) => if s == "" then some [] else none
  | .fscalar .snull => none
  | .fscalar (.snat _) => none
  | .fdict m => if m.isEmpty then some [] else none

/-- Python `", ".join(value)` (line 150): joins a list of strings; a
string is a sequence of its characters; joining a dictionary joins its
keys; `none` models the TypeError on non-string elements or non-iterable
values. -/
def pyJoinComma : Field → Option String
  | .fslist l =>
    (l.mapM (fun v => match v with | Scalar.sstr s => (some s : Option String) | _ => none)).map
      (String.intercalate ", ")
  | .fscalar (.sstr s) => some (String.intercalate ", " (s.data.map (fun c => String.mk [c])))
  | .fscalar _ => none
  | .fdict m => some (String.intercalate ", " (m.map (fun kv => kv.1)))
  | .fentries l => if l.isEmpty then some "" else none

/-- Embeds the canonical-record construction of `fetch_linkedin_data`
(src/linkedin_data_fetcher.py lines 137-184): the `result` dictionary in
key order, the education loop (lines 161-169) and the experience loop
(lines 172-182).  `none` models any exception inside the try-block, which
makes the fetch return None. -/
def normalize_record (data : List (String × Field)) : Option (List (String × Field)) := do
  let skills ← pyJoinComma (pget data "skills" (.fslist []))
  let edusRaw ← iterEntries (pget data "education" (.fentries []))
  let edus ← edusRaw.mapM (fun edu => do
    let sd ← format_date (pget edu "starts_at" (.escalar .snull))
    let ed ← format_date (pget edu "ends_at" (.escalar .snull))
    pure [("institution_name", pget edu "school" (.escalar (.sstr ""))),
          ("degree", pget edu "degree_name" (.escalar (.sstr ""))),
          ("field_of_study", pget edu "field_of_study" (.escalar (.sstr ""))),
          ("start_date", EntryVal.escalar (.sstr sd)),
          ("end_date", EntryVal.escalar (.sstr ed))])
  let expsRaw ← iterEntries (pget data "experiences" (.fentries []))
  let exps ← expsRaw.mapM (fun exp => do
    let sd ← format_date (pget exp "starts_at" (.escalar .snull))
    let ed ← format_date (pget exp "ends_at" (.escalar .snull))
    pure [("title", EntryVal.escalar (.sstr (pyOrEmptyStr (pget exp "title" (.escalar .snull))))),
          ("company", EntryVal.escalar (.sstr (pyOrEmptyStr (pget exp "company" (.escalar .snull))))),
          ("location", EntryVal.escalar (.sstr (pyOrEmptyStr (pget exp "location" (.escalar .snull))))),
          ("description", EntryVal.escalar (.sstr (pyOrEmptyStr (pget exp "description" (.escalar .snull))))),
          ("start_date", EntryVal.escalar (.sstr sd)),
          ("end_date", EntryVal.escalar (.sstr ed))])
  pure [("full_name", pget data "full_name" (.fscalar (.sstr "Unknown Name"))),
        ("public_identifier", pget data "public_identifier" (.fscalar (.sstr ""))),
        ("profile_pic_url", pget data "profile_pic_url" (.fscalar (.sstr ""))),
        ("headline", pget data "headline" (.fscalar (.sstr ""))),
        ("summary", pget data "summary" (.fscalar (.sstr ""))),
        ("country", pget data "country_full_name" (.fscalar (.sstr ""))),
        ("city", pget data "city" (.fscalar (.sstr ""))),
        ("email", pget data "personal_email" (.fscalar (.sstr ""))),
        ("contact_number", pget data "personal_contact_number" (.fscalar (.sstr ""))),
        ("github", pget data "github_profile_id" (.fscalar (.sstr ""))),
        ("twitter", pget data "twitter_profile_id" (.fscalar (.sstr ""))),
        ("facebook", pget data "facebook_profile_id" (.fscalar (.sstr ""))),
        ("skills", Field.fscalar (.sstr skills)),
        ("connections", pget data "connections" (.fscalar (.snat 0))),
        ("languages", pget data "languages" (.fslist [])),
        ("follower_count", pget data "follower_count" (.fscalar (.snat 0))),
        ("industry", pget data "industry" (.fscalar (.sstr ""))),
        ("certifications", pget data "certifications" (.fentries [])),
        ("educations", Field.fentries edus),
        ("experiences", Field.fentries exps)]

/-! Helper lemmas about the store and the batch loop, shared by the
claim theorems below. -/

theorem foldr_max_of_le (l : List Nat) (b : Nat) (h : ∀ x ∈ l, x ≤ b) : l.foldr max b = b := by
  induction l with
  | nil => rfl
  | cons a t ih =>
    have ha := h a (List.mem_cons_self a t)
    simp only [List.foldr_cons]
    rw [ih (fun x hx => h x (List.mem_cons_of_mem a hx))]
    exact Nat.max_eq_right ha

theorem le_foldr_max (l : List Nat) (b x : Nat) (hx : x ∈ l) : x ≤ l.foldr max b := by
  induction l with
  | nil => cases hx
  | cons a t ih =>
    rcases List.mem_cons.mp hx with rfl | h
    · exact Nat.le_max_left _ _
    · exact le_trans (ih h) (Nat.le_max_right _ _)

theorem profile_id_le_get_max (st : Tables) (q : DBProfile) (hq : q ∈ st.profiles) :
    q.profile_id ≤ get_max_profile_id false st := by
  simp only [get_max_profile_id, if_neg (Bool.false_ne_true)]
  exact le_foldr_max _ 0 _ (List.mem_map_of_mem _ hq)

theorem get_max_profiles_eq (st : Tables) (l : List DBProfile) (p : DBProfile)
    (hst : st.profiles = l ++ [p]) (hle : ∀ q ∈ l, q.profile_id ≤ p.profile_id) :
    get_max_profile_id false st = p.profile_id := by
  simp only [get_max_profile_id, if_neg (Bool.false_ne_true), hst, List.map_append,
    List.foldr_append, List.map_cons, List.map_nil, List.foldr_cons, List.foldr_nil,
    Nat.max_zero]
  exact foldr_max_of_le _ _ (fun x hx => by
    obtain ⟨q, hq, rfl⟩ := List.mem_map.mp hx
    exact hle q hq)

theorem find?_url_none (l : List DBProfile) (url : String)
    (h : ∀ q ∈ l, q.profile_url ≠ url) :
    l.find? (fun p => p.profile_url == url) = none :=
  List.find?_eq_none.mpr (fun x hx => by simpa using h x hx)

theorem any_url_false (l : List DBProfile) (url : String)
    (h : ∀ q ∈ l, q.profile_url ≠ url) :
    l.any (fun p => p.profile_url == url) = false := by
  rw [Bool.eq_false_iff]
  intro hcon
  obtain ⟨x, hx, hxe⟩ := List.any_eq_true.mp hcon
  exact h x hx (by simpa using hxe)

theorem profile_exists_none (st : Tables) (url : String) (qf : Bool)
    (h : ∀ q ∈ st.profiles, q.profile_url ≠ url) :
    profile_exists qf st url = none := by
  cases qf
  · simp only [profile_exists, if_neg (Bool.false_ne_true)]
    rw [find?_url_none _ _ h]
    rfl
  · simp [profile_exists]

/-- A skipped URL (truthy existence check) leaves the loop state
unchanged. -/
theorem process_profiles_skip (ins : FailSpec) (fetch : String → Option Fetched)
    (m : Meta) (rest : List Meta) (db : Tables) (hwm : Nat)
    (h : (profile_exists (ins.existsFails m.url) db m.url).getD 0 ≠ 0) :
    process_profiles ins fetch (m :: rest) db hwm = process_profiles ins fetch rest db hwm := by
  have hb : ((profile_exists (ins.existsFails m.url) db m.url).getD 0 != 0) = true := by
    simpa [bne_iff_ne] using h
  simp only [process_profiles, hb, if_true]

/-- A URL whose fetch fails leaves the loop state unchanged. -/
theorem process_profiles_fetch_fail (ins : FailSpec) (fetch : String → Option Fetched)
    (m : Meta) (rest : List Meta) (db : Tables) (hwm : Nat)
    (h : (profile_exists (ins.existsFails m.url) db m.url).getD 0 = 0)
    (hf : fetch m.url = none) :
    process_profiles ins fetch (m :: rest) db hwm = process_profiles ins fetch rest db hwm := by
  simp only [process_profiles, h, hf, bne_self_eq_false, Bool.false_eq_true, if_false]

/-- One full step of the loop on a URL that is fetched and inserted:
the high-water-mark advances, and only a successful insert contributes
the profile's rows to the accumulated batch result. -/
theorem process_profiles_step (ins : FailSpec) (fetch : String → Option Fetched)
    (m : Meta) (rest : List Meta) (db db1 : Tables) (hwm : Nat) (d : Fetched)
    (certs : List CertRec) (ok : Bool)
    (h1 : (profile_exists (ins.existsFails m.url) db m.url).getD 0 = 0)
    (hf : fetch m.url = some d)
    (hc : d.certifications.mapM format_cert = some certs)
    (hins : insert_single_profile (ins.insertErr m.url) db
        ⟨hwm + 1, m.url, d.full_name⟩ d.educations
        (d.experiences.filter (fun e => !is_club_exp e))
        ((d.experiences.filter is_club_exp).map mk_club) certs = (db1, ok)) :
    process_profiles ins fetch (m :: rest) db hwm =
      (process_profiles ins fetch rest db1 (hwm + 1)).map
        (fun r =>
          if ok then
            (r.1, r.2.1,
              (⟨(⟨hwm + 1, m.url, d.full_name⟩ : DBProfile) :: r.2.2.profiles,
                d.educations.map (fun e => (hwm + 1, e)) ++ r.2.2.educations,
                (d.experiences.filter (fun e => !is_club_exp e)).map
                  (fun e => (hwm + 1, e)) ++ r.2.2.experiences,
                ((d.experiences.filter is_club_exp).map mk_club).map
                  (fun e => (hwm + 1, e)) ++ r.2.2.club_experiences,
                certs.map (fun c => (hwm + 1, c)) ++ r.2.2.certifications⟩ : Tables))
          else r) := by
  simp only [process_profiles, h1, hf, hc, hins, bne_self_eq_false, Bool.false_eq_true, if_false]
  cases hrec : process_profiles ins fetch rest db1 (hwm + 1) with
  | none => rfl
  | some r =>
    obtain ⟨dbF, hwmF, res⟩ := r
    cases ok <;> simp

/-- With a non-empty work list disjoint from the spreadsheet URL set, no
limit and a working connection, the batch is the loop over the whole list
started at the stored high-water-mark. -/
theorem batch_process_run (ins : FailSpec) (fetch : String → Option Fetched)
    (excel : List String) (db0 : Tables) (ms : List Meta)
    (hne : ms ≠ [])
    (hfilter : ∀ m ∈ ms, excel.contains m.url = false)
    (hconn : ins.connOk = true) :
    batch_process_excel ins fetch excel db0 none ms =
      (process_profiles ins fetch ms db0 (get_max_profile_id ins.hwmFails db0)).map
        (fun r => (r.1, r.2.2)) := by
  have h1 : ms.isEmpty = false := by
    rw [Bool.eq_false_iff]
    intro hcon
    exact hne (List.isEmpty_iff.mp hcon)
  have h2 : ms.filter (fun p => !excel.contains p.url) = ms :=
    List.filter_eq_self.mpr (fun a ha => by rw [hfilter a ha]; rfl)
  simp only [batch_process_excel, h1, h2, hconn, Bool.false_eq_true, if_false,
    Option.getD_none, Nat.lt_irrefl, Bool.not_true, gt_iff_lt]
  cases hrec : process_profiles ins fetch ms db0 (get_max_profile_id ins.hwmFails db0) with
  | none => rfl
  | some r => obtain ⟨a, b, c⟩ := r; rfl

/-- Invariant of the loop over a list of fresh, pairwise-distinct,
fetchable URLs with no injected failures: the loop succeeds, the
high-water-mark advances by the list length, the accumulated profile rows
carry the ids hwm+1, hwm+2, ... in submission order with exactly the
submitted URLs, and the store gains exactly those rows. -/
theorem process_profiles_fresh (ins : FailSpec) (fetch : String → Option Fetched) :
    ∀ (ms : List Meta) (db : Tables) (hwm : Nat),
    (∀ m ∈ ms, ins.existsFails m.url = false) →
    (∀ m ∈ ms, ins.insertErr m.url = DBErr.noErr) →
    (∀ m ∈ ms, ∃ d certs, fetch m.url = some d ∧
      d.certifications.mapM format_cert = some certs) →
    (ms.map Meta.url).Nodup →
    (∀ m ∈ ms, ∀ q ∈ db.profiles, q.profile_url ≠ m.url) →
    ∃ dbF res,
      process_profiles ins fetch ms db hwm = some (dbF, hwm + ms.length, res) ∧
      res.profiles.map (fun p => p.profile_id) = List.range' (hwm + 1) ms.length ∧
      res.profiles.map (fun p => p.profile_url) = ms.map Meta.url ∧
      dbF.profiles = db.profiles ++ res.profiles := by
  intro ms
  induction ms with
  | nil =>
    intro db hwm _ _ _ _ _
    exact ⟨db, empty_tables, by simp [process_profiles], by simp [empty_tables],
      by simp [empty_tables], by simp [empty_tables]⟩
  | cons m rest ih =>
    intro db hwm hex herr hfetch hnodup hfresh
    have hmem := List.mem_cons_self m rest
    obtain ⟨d, certs, hf, hc⟩ := hfetch m hmem
    have hpe : (profile_exists (ins.existsFails m.url) db m.url).getD 0 = 0 := by
      rw [profile_exists_none db m.url _ (hfresh m hmem)]; rfl
    have hany : db.profiles.any (fun q => q.profile_url == m.url) = false :=
      any_url_false _ _ (hfresh m hmem)
    have hins : insert_single_profile (ins.insertErr m.url) db
        ⟨hwm + 1, m.url, d.full_name⟩ d.educations
        (d.experiences.filter (fun e => !is_club_exp e))
        ((d.experiences.filter is_club_exp).map mk_club) certs =
        (⟨db.profiles ++ [⟨hwm + 1, m.url, d.full_name⟩],
          db.educations ++ d.educations.map (fun e => (hwm + 1, e)),
          db.experiences ++ (d.experiences.filter (fun e => !is_club_exp e)).map
            (fun e => (hwm + 1, e)),
          db.club_experiences ++ ((d.experiences.filter is_club_exp).map mk_club).map
            (fun e => (hwm + 1, e)),
          db.certifications ++ certs.map (fun c => (hwm + 1, c))⟩, true) := by
      rw [herr m hmem]
      simp [insert_single_profile, hany]
    rw [process_profiles_step ins fetch m rest db _ hwm d certs true hpe hf hc hins]
    obtain ⟨hnotin, hnodup2⟩ : (∀ x ∈ rest, ¬ x.url = m.url) ∧ (rest.map Meta.url).Nodup := by
      simpa using hnodup
    have hhead : ∀ m2 ∈ rest, m.url ≠ m2.url := fun m2 hm2 hcon => hnotin m2 hm2 hcon.symm
    have ihres := ih
      (⟨db.profiles ++ [⟨hwm + 1, m.url, d.full_name⟩],
        db.educations ++ d.educations.map (fun e => (hwm + 1, e)),
        db.experiences ++ (d.experiences.filter (fun e => !is_club_exp e)).map
          (fun e => (hwm + 1, e)),
        db.club_experiences ++ ((d.experiences.filter is_club_exp).map mk_club).map
          (fun e => (hwm + 1, e)),
        db.certifications ++ certs.map (fun c => (hwm + 1, c))⟩ : Tables)
      (hwm + 1)
      (fun m2 hm2 => hex m2 (List.mem_cons_of_mem m hm2))
      (fun m2 hm2 => herr m2 (List.mem_cons_of_mem m hm2))
      (fun m2 hm2 => hfetch m2 (List.mem_cons_of_mem m hm2))
      hnodup2
      (by
        intro m2 hm2 q hq
        rcases List.mem_append.mp hq with hq1 | hq2
        · exact hfresh m2 (List.mem_cons_of_mem m hm2) q hq1
        · rcases List.mem_singleton.mp hq2 with rfl
          exact hhead m2 hm2)
    obtain ⟨dbF, res, hrec, hids, hurls, hdbF⟩ := ihres
    rw [hrec]
    have hlen : hwm + 1 + rest.length = hwm + (m :: rest).length := by
      simp only [List.length_cons]; omega
    refine ⟨dbF,
      ⟨(⟨hwm + 1, m.url, d.full_name⟩ : DBProfile) :: res.profiles,
       d.educations.map (fun e => (hwm + 1, e)) ++ res.educations,
       (d.experiences.filter (fun e => !is_club_exp e)).map
         (fun e => (hwm + 1, e)) ++ res.experiences,
       ((d.experiences.filter is_club_exp).map mk_club).map
         (fun e => (hwm + 1, e)) ++ res.club_experiences,
       certs.map (fun c => (hwm + 1, c)) ++ res.certifications⟩, ?_, ?_, ?_, ?_⟩
    · simp only [Option.map_some', if_true, eq_self_iff_true]
      rw [← hlen]
    · simp only [List.map_cons, hids, List.length_cons, List.range'_succ]
    · simp only [List.map_cons, hurls]
    · simp only [hdbF, List.append_assoc, List.cons_append, List.nil_append]

/-- Claim C2 (confirmed): submitting the same source_url twice in
sequence persists exactly one profile row, hands exactly one profile row
to the spreadsheet sink, and consumes exactly one identifier (the stored
high-water-mark advances by exactly one). -/
theorem dedup_double_submission (ins : FailSpec) (fetch : String → Option Fetched)
    (excel : List String) (db0 : Tables) (m : Meta) (d : Fetched)
    (hconn : ins.connOk = true) (hhwm : ins.hwmFails = false)
    (hexf : ins.existsFails m.url = false)
    (herr : ins.insertErr m.url = DBErr.noErr)
    (hfetch : fetch m.url = some d) (hcert : d.certifications = [])
    (hexcel : excel.contains m.url = false)
    (hfresh : ∀ q ∈ db0.profiles, q.profile_url ≠ m.url) :
    ∃ db1 res,
      batch_process_excel ins fetch excel db0 none [m, m] = some (db1, res) ∧
      db1.profiles =
        db0.profiles ++ [⟨get_max_profile_id false db0 + 1, m.url, d.full_name⟩] ∧
      db1.profiles.countP (fun q => q.profile_url == m.url) = 1 ∧
      res.profiles = [⟨get_max_profile_id false db0 + 1, m.url, d.full_name⟩] ∧
      get_max_profile_id false db1 = get_max_profile_id false db0 + 1 := by
  have hrun := batch_process_run ins fetch excel db0 [m, m] (by simp)
    (by intro x hx; rcases List.mem_cons.mp hx with rfl | hx2
        · exact hexcel
        · rcases List.mem_cons.mp hx2 with rfl | hx3
          · exact hexcel
          · cases hx3) hconn
  rw [hhwm] at hrun
  have hpe0 : (profile_exists (ins.existsFails m.url) db0 m.url).getD 0 = 0 := by
    rw [profile_exists_none db0 m.url _ hfresh]; rfl
  have hcerts : d.certifications.mapM format_cert = some [] := by rw [hcert]; rfl
  have hany : db0.profiles.any (fun q => q.profile_url == m.url) = false :=
    any_url_false _ _ hfresh
  have hins : insert_single_profile (ins.insertErr m.url) db0
      ⟨get_max_profile_id false db0 + 1, m.url, d.full_name⟩ d.educations
      (d.experiences.filter (fun e => !is_club_exp e))
      ((d.experiences.filter is_club_exp).map mk_club) [] =
      (⟨db0.profiles ++ [⟨get_max_profile_id false db0 + 1, m.url, d.full_name⟩],
        db0.educations ++ d.educations.map (fun e => (get_max_profile_id false db0 + 1, e)),
        db0.experiences ++ (d.experiences.filter (fun e => !is_club_exp e)).map
          (fun e => (get_max_profile_id false db0 + 1, e)),
        db0.club_experiences ++ ((d.experiences.filter is_club_exp).map mk_club).map
          (fun e => (get_max_profile_id false db0 + 1, e)),
        db0.certifications⟩, true) := by
    rw [herr]
    simp [insert_single_profile, hany]
  rw [process_profiles_step ins fetch m [m] db0 _ _ d [] true hpe0 hfetch hcerts hins] at hrun
  have hpe1 : (profile_exists (ins.existsFails m.url)
      (⟨db0.profiles ++ [⟨get_max_profile_id false db0 + 1, m.url, d.full_name⟩],
        db0.educations ++ d.educations.map (fun e => (get_max_profile_id false db0 + 1, e)),
        db0.experiences ++ (d.experiences.filter (fun e => !is_club_exp e)).map
          (fun e => (get_max_profile_id false db0 + 1, e)),
        db0.club_experiences ++ ((d.experiences.filter is_club_exp).map mk_club).map
          (fun e => (get_max_profile_id false db0 + 1, e)),
        db0.certifications⟩ : Tables) m.url).getD 0 = get_max_profile_id false db0 + 1 := by
    rw [hexf]
    simp only [profile_exists, if_neg (Bool.false_ne_true), List.find?_append,
      find?_url_none _ _ hfresh]
    simp [List.find?]
  rw [process_profiles_skip _ _ _ _ _ _ (by rw [hpe1]; exact Nat.succ_ne_zero _)] at hrun
  simp only [process_profiles, Option.map_some, if_true, eq_self_iff_true, List.map_nil,
    List.nil_append, List.append_nil, empty_tables] at hrun
  refine ⟨_, _, hrun, rfl, ?_, ?_, ?_⟩
  · rw [List.countP_append]
    have h0 : db0.profiles.countP (fun q => q.profile_url == m.url) = 0 := by
      rw [List.countP_eq_zero]
      intro a ha
      simpa using hfresh a ha
    simp [h0, List.countP_cons]
  · simp [empty_tables]
  · exact get_max_profiles_eq _ db0.profiles
      ⟨get_max_profile_id false db0 + 1, m.url, d.full_name⟩ rfl
      (fun q hq => le_trans (profile_id_le_get_max db0 q hq) (Nat.le_succ _))

/-- Witness for C2 at a concrete input: the URL u submitted twice against
an empty store yields one row with id 1 in both sinks. -/
theorem dedup_double_submission_witness :
    ∃ db1 res,
      batch_process_excel ⟨true, false, fun _ => false, fun _ => DBErr.noErr⟩
          (fun _ => some ⟨"A", [], [], []⟩) [] empty_tables none [⟨"u", "n"⟩, ⟨"u", "n"⟩]
        = some (db1, res) ∧
      db1.profiles = [⟨1, "u", "A"⟩] ∧
      db1.profiles.countP (fun q => q.profile_url == "u") = 1 ∧
      res.profiles = [⟨1, "u", "A"⟩] ∧
      get_max_profile_id false db1 = 1 := by
  have h := dedup_double_submission ⟨true, false, fun _ => false, fun _ => DBErr.noErr⟩
    (fun _ => some ⟨"A", [], [], []⟩) [] empty_tables ⟨"u", "n"⟩ ⟨"A", [], [], []⟩
    rfl rfl rfl rfl rfl rfl rfl (fun q hq => absurd hq (List.not_mem_nil q))
  simpa [empty_tables, get_max_profile_id] using h

/-- Claim C3 (confirmed): a batch of N fresh, pairwise-distinct,
fetchable URLs starting from the stored high-water-mark H is assigned
exactly the ids H+1, ..., H+N, each exactly once, in submission order. -/
theorem monotonic_id_assignment (ins : FailSpec) (fetch : String → Option Fetched)
    (excel : List String) (db0 : Tables) (ms : List Meta)
    (hne : ms ≠ [])
    (hfilter : ∀ m ∈ ms, excel.contains m.url = false)
    (hconn : ins.connOk = true) (hhwm : ins.hwmFails = false)
    (hex : ∀ m ∈ ms, ins.existsFails m.url = false)
    (herr : ∀ m ∈ ms, ins.insertErr m.url = DBErr.noErr)
    (hfetch : ∀ m ∈ ms, ∃ d certs, fetch m.url = some d ∧
      d.certifications.mapM format_cert = some certs)
    (hnodup : (ms.map Meta.url).Nodup)
    (hfresh : ∀ m ∈ ms, ∀ q ∈ db0.profiles, q.profile_url ≠ m.url) :
    ∃ db1 res,
      batch_process_excel ins fetch excel db0 none ms = some (db1, res) ∧
      res.profiles.map (fun p => p.profile_id) =
        List.range' (get_max_profile_id false db0 + 1) ms.length ∧
      (res.profiles.map (fun p => p.profile_id)).Nodup ∧
      res.profiles.map (fun p => p.profile_url) = ms.map Meta.url ∧
      db1.profiles = db0.profiles ++ res.profiles := by
  rw [batch_process_run ins fetch excel db0 ms hne hfilter hconn, hhwm]
  obtain ⟨dbF, res, hrec, hids, hurls, hdbF⟩ :=
    process_profiles_fresh ins fetch ms db0 (get_max_profile_id false db0)
      hex herr hfetch hnodup hfresh
  rw [hrec]
  exact ⟨dbF, res, by simp [Option.map_some'], hids,
    by rw [hids]; exact List.nodup_range' _ _, hurls, hdbF⟩

/-- Witness for C3 at a concrete input: two fresh URLs against a store
whose high-water-mark is 5 receive exactly the ids 6 and 7, in order. -/
theorem monotonic_id_assignment_witness :
    ∃ db1 res,
      batch_process_excel ⟨true, false, fun _ => false, fun _ => DBErr.noErr⟩
          (fun u => some ⟨u, [], [], []⟩) [] ⟨[⟨5, "w", "X"⟩], [], [], [], []⟩ none
          [⟨"u1", "a"⟩, ⟨"u2", "b"⟩]
        = some (db1, res) ∧
      res.profiles.map (fun p => p.profile_id) = [6, 7] ∧
      (res.profiles.map (fun p => p.profile_id)).Nodup ∧
      res.profiles.map (fun p => p.profile_url) = ["u1", "u2"] ∧
      db1.profiles = ⟨5, "w", "X"⟩ :: res.profiles := by
  obtain ⟨db1, res, h1, h2, h3, h4, h5⟩ :=
    monotonic_id_assignment ⟨true, false, fun _ => false, fun _ => DBErr.noErr⟩
      (fun u => some ⟨u, [], [], []⟩) [] ⟨[⟨5, "w", "X"⟩], [], [], [], []⟩
      [⟨"u1", "a"⟩, ⟨"u2", "b"⟩]
      (by decide)
      (by intro m hm; rfl)
      rfl rfl
      (by intro m hm; rfl)
      (by intro m hm; rfl)
      (by intro m hm; exact ⟨⟨m.url, [], [], []⟩, [], rfl, rfl⟩)
      (by decide)
      (by decide)
  refine ⟨db1, res, h1, ?_, h3, h4, ?_⟩
  · rw [h2]; rfl
  · rw [h5]; rfl

/-- Claim C1 counterexample: with the high-water-mark query failing
(store query unavailable), the batch does NOT abort: the resolver falls
back to 0 and a fresh URL is processed and assigned id 1, although the
store already holds id 7. -/
theorem hwm_read_failure_processes_batch_cex :
    get_max_profile_id true ⟨[⟨7, "w", "X"⟩], [], [], [], []⟩ = 0 ∧
    (batch_process_excel ⟨true, true, fun _ => false, fun _ => DBErr.noErr⟩
        (fun _ => some ⟨"A", [], [], []⟩) [] ⟨[⟨7, "w", "X"⟩], [], [], [], []⟩ none
        [⟨"u", "n"⟩]).map (fun r => r.2.profiles) = some [⟨1, "u", "A"⟩] := by
  decide

/-- Claim C1 (corrected): only a failure to establish the database
connection aborts the batch with the store untouched and no rows for
either sink; a failure of the high-water-mark query itself does not
abort — get_max_profile_id returns 0 and the batch continues, assigning
ids from 1. -/
theorem connection_failure_aborts_hwm_failure_continues
    (ins ins' : FailSpec) (fetch : String → Option Fetched)
    (excel : List String) (db0 : Tables) (ms : List Meta) (m : Meta) (d : Fetched)
    (hconn : ins.connOk = false)
    (hconn' : ins'.connOk = true) (hhwm' : ins'.hwmFails = true)
    (hexf' : ins'.existsFails m.url = false)
    (herr' : ins'.insertErr m.url = DBErr.noErr)
    (hfetch : fetch m.url = some d) (hcert : d.certifications = [])
    (hexcel : excel.contains m.url = false)
    (hfresh : ∀ q ∈ db0.profiles, q.profile_url ≠ m.url) :
    batch_process_excel ins fetch excel db0 none ms = some (db0, empty_tables) ∧
    ∃ db1 res, batch_process_excel ins' fetch excel db0 none [m] = some (db1, res) ∧
      res.profiles = [⟨1, m.url, d.full_name⟩] := by
  constructor
  · simp only [batch_process_excel, hconn, Bool.not_false, if_true]
    split
    · rfl
    · split <;> rfl
  · have hrun := batch_process_run ins' fetch excel db0 [m] (by simp)
      (by intro x hx
          rcases List.mem_cons.mp hx with rfl | hx2
          · exact hexcel
          · cases hx2) hconn'
    rw [hhwm'] at hrun
    have hzero : get_max_profile_id true db0 = 0 := by simp [get_max_profile_id]
    rw [hzero] at hrun
    have hpe : (profile_exists (ins'.existsFails m.url) db0 m.url).getD 0 = 0 := by
      rw [profile_exists_none db0 m.url _ hfresh]; rfl
    have hcerts : d.certifications.mapM format_cert = some [] := by rw [hcert]; rfl
    have hany : db0.profiles.any (fun q => q.profile_url == m.url) = false :=
      any_url_false _ _ hfresh
    have hins : insert_single_profile (ins'.insertErr m.url) db0
        ⟨0 + 1, m.url, d.full_name⟩ d.educations
        (d.experiences.filter (fun e => !is_club_exp e))
        ((d.experiences.filter is_club_exp).map mk_club) [] =
        (⟨db0.profiles ++ [⟨0 + 1, m.url, d.full_name⟩],
          db0.educations ++ d.educations.map (fun e => (0 + 1, e)),
          db0.experiences ++ (d.experiences.filter (fun e => !is_club_exp e)).map
            (fun e => (0 + 1, e)),
          db0.club_experiences ++ ((d.experiences.filter is_club_exp).map mk_club).map
            (fun e => (0 + 1, e)),
          db0.certifications⟩, true) := by
      rw [herr']
      simp [insert_single_profile, hany]
    rw [process_profiles_step ins' fetch m [] db0 _ 0 d [] true hpe hfetch hcerts hins] at hrun
    simp only [process_profiles, Option.map_some', if_true, eq_self_iff_true, List.map_nil,
      List.nil_append, List.append_nil, empty_tables, Nat.zero_add] at hrun
    exact ⟨_, _, hrun, rfl⟩

/-- Witness for C1 at a concrete input: a failed connection aborts; a
failed high-water-mark query still processes the URL u with id 1. -/
theorem connection_failure_aborts_hwm_failure_continues_witness :
    batch_process_excel ⟨false, false, fun _ => false, fun _ => DBErr.noErr⟩
        (fun _ => some ⟨"A", [], [], []⟩) [] empty_tables none [⟨"x", "y"⟩]
      = some (empty_tables, empty_tables) ∧
    ∃ db1 res,
      batch_process_excel ⟨true, true, fun _ => false, fun _ => DBErr.noErr⟩
          (fun _ => some ⟨"A", [], [], []⟩) [] empty_tables none [⟨"u", "n"⟩]
        = some (db1, res) ∧
      res.profiles = [⟨1, "u", "A"⟩] :=
  connection_failure_aborts_hwm_failure_continues
    ⟨false, false, fun _ => false, fun _ => DBErr.noErr⟩
    ⟨true, true, fun _ => false, fun _ => DBErr.noErr⟩
    (fun _ => some ⟨"A", [], [], []⟩) [] empty_tables [⟨"x", "y"⟩] ⟨"u", "n"⟩
    ⟨"A", [], [], []⟩ rfl rfl rfl rfl rfl rfl rfl rfl
    (fun q hq => absurd hq (List.not_mem_nil q))

/-- Claim C4 (code bug): evaluated at the failing input — a
SQLAlchemyError at the SECOND commit of insert_single_profile (the
certifications commit) — the per-profile write is not atomic: the call
reports failure, yet the profile and education rows added by the first
commit remain in the store, which therefore differs from the initial
store. -/
theorem insert_partial_commit_on_cert_failure :
    insert_single_profile DBErr.atCommit2 empty_tables ⟨1, "u", "A"⟩
        [⟨"MIT", "BS", "CS", "01/2010", "01/2014"⟩] [] [] [] =
      (⟨[⟨1, "u", "A"⟩], [(1, ⟨"MIT", "BS", "CS", "01/2010", "01/2014"⟩)], [], [], []⟩,
       false) ∧
    (⟨[⟨1, "u", "A"⟩], [(1, ⟨"MIT", "BS", "CS", "01/2010", "01/2014"⟩)], [], [], []⟩ :
      Tables) ≠ empty_tables := by
  decide

/-- Claim C5 counterexample: a profile whose relational insert fails (at
the first commit) is completely absent from the batch result, so the
end-of-run spreadsheet write receives no row for it — with an insert
failure the batch yields empty row-lists, with no failure the same batch
yields one profile row.  The spreadsheet write for the failed profile
does not proceed. -/
theorem db_failed_profile_excluded_from_spreadsheet_cex :
    batch_process_excel ⟨true, false, fun _ => false, fun _ => DBErr.atCommit1⟩
        (fun _ => some ⟨"A", [], [], []⟩) [] empty_tables none [⟨"u", "n"⟩]
      = some (empty_tables, empty_tables) ∧
    (batch_process_excel ⟨true, false, fun _ => false, fun _ => DBErr.noErr⟩
        (fun _ => some ⟨"A", [], [], []⟩) [] empty_tables none [⟨"u", "n"⟩]).map
      (fun r => r.2.profiles.length) = some 1 := by
  decide

/-- Claim C5 (corrected): when the first profile's relational write fails
at the first commit, the transaction is rolled back for that profile only
and the batch continues — the second profile is fetched, inserted and
committed — but the failed profile is excluded from the end-of-run
spreadsheet payload: only the successfully inserted profile appears in
the returned row-lists.  The failed profile still consumed an identifier:
the second profile receives H+2, not H+1. -/
theorem relational_failure_rolls_back_only_that_profile
    (ins : FailSpec) (fetch : String → Option Fetched)
    (excel : List String) (db0 : Tables) (m1 m2 : Meta) (d1 d2 : Fetched)
    (hconn : ins.connOk = true) (hhwm : ins.hwmFails = false)
    (hexf1 : ins.existsFails m1.url = false) (hexf2 : ins.existsFails m2.url = false)
    (herr1 : ins.insertErr m1.url = DBErr.atCommit1)
    (herr2 : ins.insertErr m2.url = DBErr.noErr)
    (hf1 : fetch m1.url = some d1) (hf2 : fetch m2.url = some d2)
    (hc1 : d1.certifications = []) (hc2 : d2.certifications = [])
    (hx1 : excel.contains m1.url = false) (hx2 : excel.contains m2.url = false)
    (hfresh1 : ∀ q ∈ db0.profiles, q.profile_url ≠ m1.url)
    (hfresh2 : ∀ q ∈ db0.profiles, q.profile_url ≠ m2.url) :
    ∃ db1 res,
      batch_process_excel ins fetch excel db0 none [m1, m2] = some (db1, res) ∧
      res.profiles = [⟨get_max_profile_id false db0 + 2, m2.url, d2.full_name⟩] ∧
      db1.profiles =
        db0.profiles ++ [⟨get_max_profile_id false db0 + 2, m2.url, d2.full_name⟩] := by
  have hrun := batch_process_run ins fetch excel db0 [m1, m2] (by simp)
    (by intro x hx
        rcases List.mem_cons.mp hx with rfl | hm2
        · exact hx1
        · rcases List.mem_cons.mp hm2 with rfl | hm3
          · exact hx2
          · cases hm3) hconn
  rw [hhwm] at hrun
  have hpe1 : (profile_exists (ins.existsFails m1.url) db0 m1.url).getD 0 = 0 := by
    rw [profile_exists_none db0 m1.url _ hfresh1]; rfl
  have hcerts1 : d1.certifications.mapM format_cert = some [] := by rw [hc1]; rfl
  have hany1 : db0.profiles.any (fun q => q.profile_url == m1.url) = false :=
    any_url_false _ _ hfresh1
  have hins1 : insert_single_profile (ins.insertErr m1.url) db0
      ⟨get_max_profile_id false db0 + 1, m1.url, d1.full_name⟩ d1.educations
      (d1.experiences.filter (fun e => !is_club_exp e))
      ((d1.experiences.filter is_club_exp).map mk_club) [] = (db0, false) := by
    rw [herr1]
    simp [insert_single_profile, hany1]
  rw [process_profiles_step ins fetch m1 [m2] db0 db0 _ d1 [] false hpe1 hf1 hcerts1 hins1]
    at hrun
  have hpe2 : (profile_exists (ins.existsFails m2.url) db0 m2.url).getD 0 = 0 := by
    rw [profile_exists_none db0 m2.url _ hfresh2]; rfl
  have hcerts2 : d2.certifications.mapM format_cert = some [] := by rw [hc2]; rfl
  have hany2 : db0.profiles.any (fun q => q.profile_url == m2.url) = false :=
    any_url_false _ _ hfresh2
  have hins2 : insert_single_profile (ins.insertErr m2.url) db0
      ⟨get_max_profile_id false db0 + 1 + 1, m2.url, d2.full_name⟩ d2.educations
      (d2.experiences.filter (fun e => !is_club_exp e))
      ((d2.experiences.filter is_club_exp).map mk_club) [] =
      (⟨db0.profiles ++ [⟨get_max_profile_id false db0 + 1 + 1, m2.url, d2.full_name⟩],
        db0.educations ++ d2.educations.map
          (fun e => (get_max_profile_id false db0 + 1 + 1, e)),
        db0.experiences ++ (d2.experiences.filter (fun e => !is_club_exp e)).map
          (fun e => (get_max_profile_id false db0 + 1 + 1, e)),
        db0.club_experiences ++ ((d2.experiences.filter is_club_exp).map mk_club).map
          (fun e => (get_max_profile_id false db0 + 1 + 1, e)),
        db0.certifications⟩, true) := by
    rw [herr2]
    simp [insert_single_profile, hany2]
  rw [process_profiles_step ins fetch m2 [] db0 _ _ d2 [] true hpe2 hf2 hcerts2 hins2] at hrun
  simp only [process_profiles, Option.map_some', if_true, eq_self_iff_true, List.map_nil,
    List.nil_append, List.append_nil, empty_tables, Bool.false_eq_true, if_false] at hrun
  exact ⟨_, _, hrun, rfl, rfl⟩

/-- Witness for C5 at a concrete input: u1 fails its insert, u2 (run
right after) is committed with id 2 and is the only spreadsheet row. -/
theorem relational_failure_rolls_back_only_that_profile_witness :
    ∃ db1 res,
      batch_process_excel
          ⟨true, false, fun _ => false,
           fun u => if u == "u1" then DBErr.atCommit1 else DBErr.noErr⟩
          (fun u => some ⟨u, [], [], []⟩) [] empty_tables none
          [⟨"u1", "a"⟩, ⟨"u2", "b"⟩]
        = some (db1, res) ∧
      res.profiles = [⟨2, "u2", "u2"⟩] ∧
      db1.profiles = [⟨2, "u2", "u2"⟩] := by
  have h := relational_failure_rolls_back_only_that_profile
    ⟨true, false, fun _ => false,
     fun u => if u == "u1" then DBErr.atCommit1 else DBErr.noErr⟩
    (fun u => some ⟨u, [], [], []⟩) [] empty_tables ⟨"u1", "a"⟩ ⟨"u2", "b"⟩
    ⟨"u1", [], [], []⟩ ⟨"u2", [], [], []⟩
    rfl rfl rfl rfl (by decide) (by decide) rfl rfl rfl rfl rfl rfl
    (fun q hq => absurd hq (List.not_mem_nil q))
    (fun q hq => absurd hq (List.not_mem_nil q))
  simpa [empty_tables, get_max_profile_id] using h

/-- Claim C6 counterexample: a wholly absent date pair (None, or an empty
date dictionary) is encoded as the literal Present, NOT as N-slash-A as
the claim states. -/
theorem absent_date_is_present_not_na_cex :
    format_date (.escalar .snull) = some "Present" ∧
    format_date (.edict []) = some "Present" ∧
    format_date (.escalar .snull) ≠ some "N/A" := by
  decide

/-- Claim C6 (corrected): a month/year pair with both components present
is formatted as zero-padded MM/YYYY; an absent date — end date or
otherwise, None or an empty pair — is encoded Present; a date dictionary
lacking its year is encoded N/A. -/
theorem format_date_spec (m y : Nat) (h1 : 1 ≤ m) (h2 : m ≤ 12) :
    format_date (.edict [("month", .snat m), ("year", .snat y)])
      = some ((if m < 10 then "0" ++ Nat.repr m else Nat.repr m) ++ "/" ++ Nat.repr y) ∧
    format_date (.escalar .snull) = some "Present" ∧
    format_date (.edict [("month", .snat m)]) = some "N/A" := by
  refine ⟨?_, rfl, ?_⟩
  · have hy : (Nat.repr y == "") = false := by
      rw [beq_eq_false_iff_ne]; exact repr_ne_empty y
    simp only [format_date, EntryVal.truthy, pget, pyStr, List.find?, Bool.not_false]
    interval_cases m <;> simp_all [zfill2] <;> rfl
  · simp only [format_date, EntryVal.truthy, pget, pyStr, List.find?]
    interval_cases m <;> rfl

/-- Witness for C6 at a concrete input: month 5 of year 2020 becomes
05/2020, an absent date becomes Present, a yearless pair becomes N/A. -/
theorem format_date_spec_witness :
    format_date (.edict [("month", .snat 5), ("year", .snat 2020)]) = some "05/2020" ∧
    format_date (.escalar .snull) = some "Present" ∧
    format_date (.edict [("month", .snat 5)]) = some "N/A" := by
  obtain ⟨ha, hb, hc⟩ := format_date_spec 5 2020 (by decide) (by decide)
  refine ⟨?_, hb, hc⟩
  rw [ha]; rfl

/-- Claim C7 counterexample: a pre-existing file missing its Profiles
sheet makes the whole append-mode write fail (returns None) instead of
being treated as an empty row-set. -/
theorem absent_profiles_sheet_fails_write_cex :
    write_to_excel (some ⟨none, some [], some [], some [], some []⟩) true empty_tables
      = none := by
  decide

/-- Claim C7 (corrected): only the Club Experiences and Certifications
sheets are tolerated when absent from a pre-existing file — they are
treated as empty row-sets and the write completes, appending the new rows
to nothing; an absent Profiles sheet fails the whole write. -/
theorem absent_club_cert_sheets_treated_empty
    (f g : ExcelFile) (nd ndg : Tables)
    (p : List DBProfile) (e : List (Nat × EduRec)) (x : List (Nat × ExpRec))
    (hp : f.profiles = some p) (he : f.educations = some e) (hx : f.experiences = some x)
    (hc : f.club_experiences = none) (hcert : f.certifications = none)
    (hg : g.profiles = none) :
    (∃ out, write_to_excel (some f) true nd = some out ∧
      out.club_experiences = some nd.club_experiences ∧
      out.certifications = some nd.certifications) ∧
    write_to_excel (some g) true ndg = none := by
  constructor
  · have hw : write_to_excel (some f) true nd =
        some ⟨some ((if !nd.profiles.isEmpty then
            p.filter (fun q =>
              !(nd.profiles.map (fun r => r.profile_url)).contains q.profile_url)
          else p) ++ nd.profiles),
          some (e ++ nd.educations), some (x ++ nd.experiences),
          some ([] ++ nd.club_experiences), some ([] ++ nd.certifications)⟩ := by
      simp only [write_to_excel, hp, he, hx, hc, hcert, Option.getD_none]
    exact ⟨_, hw, by simp, by simp⟩
  · simp only [write_to_excel, hg]

/-- Witness for C7 at a concrete input: a file holding the three
mandatory sheets but no Club Experiences / Certifications sheets accepts
the write; a file without a Profiles sheet rejects it. -/
theorem absent_club_cert_sheets_treated_empty_witness :
    (∃ out,
      write_to_excel (some ⟨some [], some [], some [], none, none⟩) true empty_tables
        = some out ∧
      out.club_experiences = some empty_tables.club_experiences ∧
      out.certifications = some empty_tables.certifications) ∧
    write_to_excel (some ⟨none, some [], some [], some [], some []⟩) true empty_tables
      = none :=
  absent_club_cert_sheets_treated_empty
    ⟨some [], some [], some [], none, none⟩
    ⟨none, some [], some [], some [], some []⟩
    empty_tables empty_tables [] [] [] rfl rfl rfl rfl rfl rfl

/-- Claim C8 counterexample: normalization is NOT idempotent — a raw
record carrying a provider-keyed field (country_full_name) normalizes to
a canonical record whose second normalization differs from the first
(the country value is lost, the provider key being absent from the
canonical record). -/
theorem normalize_not_idempotent_cex :
    (normalize_record [("country_full_name", .fscalar (.sstr "France"))]).bind
        normalize_record
      ≠ normalize_record [("country_full_name", .fscalar (.sstr "France"))] := by
  decide

/-- Claim C8 (corrected): normalization is idempotent only on records on
which the loss of provider-keyed fields is invisible; in particular the
normalization of the empty raw record is a fixed point, so
normalize composed with normalize agrees with normalize there. -/
theorem normalize_idempotent_on_empty_record :
    (normalize_record []).bind normalize_record = normalize_record [] := by
  decide

/-- Claim C9 (code bug): evaluated at the failing input SeniorManager —
the title is lowercased BEFORE the camel-case split, so no uppercase
character remains, the split is a no-op, and the token set examined for
exact leadership-keyword matches is the single concatenated word, not the
constituent words. -/
theorem camel_case_split_dead_after_lowercase :
    leadership_tokens "SeniorManager" = ["seniormanager"] ∧
    ¬ ("senior" ∈ leadership_tokens "SeniorManager" ∧
       "manager" ∈ leadership_tokens "SeniorManager") := by
  decide

/-- Claim C10 (confirmed): whenever the most recent experience has a
non-empty company name that normalize_company_name reduces to the empty
string, is_fortune_500 returns true for every non-empty reference set and
every similarity oracle, because the empty normalized name is a substring
of the first reference entry in the containment check. -/
theorem empty_normalized_name_matches_any_company
    (companies : List String) (ratio : String → String → Nat)
    (e : ExpRec) (rest : List ExpRec)
    (hne : companies ≠ [])
    (hc : (e.company == "") = false)
    (hnorm : normalize_company_name e.company = some "") :
    is_fortune_500 companies ratio (e :: rest) = true := by
  obtain ⟨c0, cs, rfl⟩ := List.exists_cons_of_ne_nil hne
  simp only [is_fortune_500, hnorm, hc, Bool.false_eq_true, if_false]
  by_cases hmem : ((c0 :: cs).contains "" = true)
  · rw [if_pos hmem]
  · rw [if_neg hmem]
    have hdata : ("" : String).data = [] := rfl
    simp [hdata, listIsInfix_nil]

/-- Witness for C10 at a concrete input: the company name .com
normalizes to the empty string (the .com suffix is stripped), and the
profile is classified as Fortune 500 against the singleton reference set
walmart with a zero similarity oracle. -/
theorem empty_normalized_name_matches_any_company_witness :
    is_fortune_500 ["walmart"] (fun _ _ => 0)
      [⟨"", ".com", "", "", "", ""⟩] = true :=
  empty_normalized_name_matches_any_company ["walmart"] (fun _ _ => 0)
    ⟨"", ".com", "", "", "", ""⟩ [] (by decide) (by decide) (by decide)

end LinkedinFmt
